import Mathlib

set_option maxRecDepth 100000

/- Batteries marks the arithmetic on ℚ irreducible; make it unfold again so
   that concrete runs of the embedded functions can be settled by `decide`. -/
attribute [local semireducible] Rat.mul Rat.inv Rat.add Rat.sub

/- Shallow embedding of the vendor due-diligence core of
   src/Google_CSE/main.py (with the SERP_API variant noted where it is the
   cited source).  Text is modelled as `List Char` (the inputs exercised here
   are ASCII, so Python str.lower is `Char.toLower` pointwise), Python floats
   as `ℚ`, and the two effects of the classifier — `datetime.datetime.now()`
   and the Stanza entity extractor `self.nlp` — as explicit arguments
   (`now : Nat`, `ner : List Char → List String`). -/

/-- AppConfig.min_confidence_score (main.py line 68): 0.75. -/
def min_confidence_score : ℚ := 3 / 4

/-- AppConfig.context_window_size (main.py line 69): 150. -/
def context_window_size : Nat := 150

/-- AppConfig.max_concurrent_scrapes (main.py line 63): declared with value 8;
    no other line of main.py reads this field. -/
def max_concurrent_scrapes : Nat := 8

/-- AppConfig.risk_keywords (main.py lines 82-102), in source order. -/
def risk_keywords : List String :=
  ["fraud", "fraudulent", "embezzlement", "money laundering", "tax evasion",
   "bribery", "kickback", "corruption", "insider trading", "ponzi scheme",
   "lawsuit", "litigation", "sued", "convicted", "guilty", "sentenced",
   "indicted", "charged", "violated", "breach", "penalty", "fine",
   "SEC violation", "regulatory action", "compliance failure", "sanctions",
   "OFAC", "investigation", "probe", "audit findings", "enforcement action",
   "data breach", "cybersecurity incident", "hack", "leaked", "exposed",
   "safety violation", "accident", "recall", "contamination", "defective",
   "scandal", "misconduct", "unethical", "discrimination", "harassment",
   "whistleblower", "cover-up", "conflict of interest", "nepotism"]

/-- Strong-indicator list of _calculate_risk_score (main.py line 346). -/
def strong_indicators : List String :=
  ["convicted", "guilty", "sentenced", "fined", "violated", "breach"]

/-- Python str.lower for the ASCII texts modelled here. -/
def lower_chars (l : List Char) : List Char := l.map Char.toLower

/-- Helper for `str_find`: the first index, counting from `i`, at which
    `needle` is a prefix of the remaining hay. -/
def str_find_aux (needle : List Char) : List Char → Nat → Option Nat
  | [], i => if needle.isPrefixOf ([] : List Char) then some i else none
  | c :: t, i =>
    if needle.isPrefixOf (c :: t) then some i else str_find_aux needle t (i + 1)

/-- Python str.find: index of the first occurrence of `needle` in `hay`
    (`none` models the -1 return). -/
def str_find (hay needle : List Char) : Option Nat := str_find_aux needle hay 0

/-- Python `needle in hay` (equivalent to find(...) != -1). -/
def str_contains (hay needle : List Char) : Bool := (str_find hay needle).isSome

/-- All (possibly overlapping) occurrence positions of `needle` in `hay` in
    ascending order.  The `while True: pos = text_lower.find(variation, start);
    start = pos + 1` loop of extract_company_mentions (main.py 239-251)
    enumerates exactly these positions. -/
def occurrence_positions (hay needle : List Char) : List Nat :=
  (List.range (hay.length + 1)).filter (fun i => needle.isPrefixOf (hay.drop i))

/-- One insertion into an order-preserving set: keep the first occurrence. -/
def dedup_step {α : Type} [DecidableEq α] (acc : List α) (x : α) : List α :=
  if x ∈ acc then acc else acc ++ [x]

/-- Python `list(dict.fromkeys(xs))` (main.py line 512, and
    production_vendor_dd.py line 186): first-seen-order deduplication. -/
def dict_fromkeys {α : Type} [DecidableEq α] (l : List α) : List α :=
  l.foldl dedup_step []

/-- Corporate suffixes stripped by _generate_company_variations
    (main.py line 260), in source order. -/
def company_suffixes : List String :=
  ["Inc", "Corp", "Corporation", "LLC", "Ltd", "Limited", "Co"]

/-- One step of the suffix-stripping loop of _generate_company_variations
    (main.py 262-265); the state is (variations so far, current base name). -/
def suffix_strip_step (st : List (List Char) × List Char) (suf : String) :
    List (List Char) × List Char :=
  let pat := ' ' :: suf.toList
  if pat.isSuffixOf st.2 then
    let base := st.2.take (st.2.length - pat.length)
    (st.1 ++ [base], base)
  else st

/-- _generate_company_variations (main.py 255-271).  The final
    `list(set(variations))` is modelled as first-seen-order deduplication;
    in CPython the concrete set iteration order is hash-dependent, and no claim
    settled here depends on the particular order, only on the scan order the
    embedded function fixes. -/
def generate_company_variations (company : List Char) : List (List Char) :=
  let afterSuffix := company_suffixes.foldl suffix_strip_step ([company], company)
  let vars1 := afterSuffix.1
  let vars2 := vars1 ++ vars1.map (fun n => n.filter (fun c => c ≠ '.'))
  let vars3 := vars2 ++ (vars2.filter (fun n => n.getLast? ≠ some '.')).map (fun n => n ++ ['.'])
  dict_fromkeys vars3

/-- extract_company_mentions (main.py 232-253): every case-insensitive
    occurrence of every variation, as (start, end, context-window slice of the
    original-case text). -/
def extract_company_mentions (text company : List Char) : List (Nat × Nat × List Char) :=
  let textLower := lower_chars text
  (generate_company_variations company).flatMap (fun v =>
    (occurrence_positions textLower (lower_chars v)).map (fun pos =>
      let cs := pos - context_window_size
      let ce := min text.length (pos + v.length + context_window_size)
      (pos, pos + v.length, (text.drop cs).take (ce - cs))))

/-- Python min on two rationals, written so that it evaluates by kernel
    reduction (the lattice min of Mathlib on ℚ does not). -/
def pymin (a b : ℚ) : ℚ := if a ≤ b then a else b

/-- Python max on two rationals. -/
def pymax (a b : ℚ) : ℚ := if b ≤ a then a else b

/-- The three proximity bands of _calculate_risk_score (main.py 333-340):
    distance < 50 weighs 1.0, < 100 weighs 0.7, < 200 weighs 0.4, else 0. -/
def band_weight (d : Nat) : ℚ :=
  if d < 50 then 1 else if d < 100 then 7 / 10 else if d < 200 then 2 / 5 else 0

/-- Contribution of a single keyword in the loop of _calculate_risk_score
    (main.py 326-340): if the keyword occurs in the lowered context and both
    the company name and the keyword are found, add the band weight of the
    distance between their first occurrences. -/
def keyword_increment (ctxLower companyLower kwLower : List Char) : ℚ :=
  if str_contains ctxLower kwLower then
    match str_find ctxLower companyLower, str_find ctxLower kwLower with
    | some cp, some kp => band_weight ((cp : Int) - (kp : Int)).natAbs
    | _, _ => 0
  else 0

/-- Helper for the strong-indicator boost loop (main.py 346-349), recursing
    over the indicator list. -/
def strong_boost_aux (ctxLower : List Char) (base : ℚ) : List String → ℚ
  | [] => base
  | ind :: rest =>
    strong_boost_aux ctxLower
      (if str_contains ctxLower ind.toList then pymin (base + 1 / 5) 1 else base) rest

/-- The strong-indicator boost of _calculate_risk_score (main.py 345-349):
    each strong indicator present in the lowered context adds 0.2, capped at 1. -/
def strong_boost (ctxLower : List Char) (base : ℚ) : ℚ :=
  strong_boost_aux ctxLower base strong_indicators

/-- _calculate_risk_score (main.py 317-351). -/
def calculate_risk_score (context company : List Char) : ℚ :=
  let ctxLower := lower_chars context
  let companyLower := lower_chars company
  let risk_indicators :=
    (risk_keywords.map (fun k => keyword_increment ctxLower companyLower (lower_chars k.toList))).sum
  let base := pymin (risk_indicators / pymax ((risk_keywords.length : ℚ) * (1 / 10)) 1) 1
  strong_boost ctxLower base

/-- Category table of _classify_risk_category (main.py 357-363); Python dict
    iteration order is insertion order, so the table is ordered. -/
def risk_categories : List (String × List String) :=
  [("Financial Crime", ["fraud", "embezzlement", "money laundering", "bribery", "corruption"]),
   ("Legal Issues", ["lawsuit", "sued", "convicted", "guilty", "litigation", "violation"]),
   ("Regulatory", ["SEC", "regulatory", "compliance", "sanctions", "OFAC", "enforcement"]),
   ("Operational", ["breach", "hack", "safety", "recall", "accident", "defective"]),
   ("Reputational", ["scandal", "misconduct", "unethical", "discrimination", "harassment"])]

/-- _classify_risk_category (main.py 353-369).  The table keywords are matched
    verbatim (not lowercased) against the lowercased context, exactly as the
    source does. -/
def classify_risk_category (context : List Char) : String :=
  let ctxLower := lower_chars context
  match risk_categories.find? (fun ck => ck.2.any (fun k => str_contains ctxLower k.toList)) with
  | some ck => ck.1
  | none => ("General Risk")

/-- RiskFinding (main.py 162-171).  `timestamp` is the Nat clock value passed
    in for `datetime.datetime.now()`. -/
structure RiskFinding where
  url : String
  title : String
  context : List Char
  confidence_score : ℚ
  risk_category : String
  entities_found : List String
  timestamp : Nat
deriving DecidableEq

/-- Python str.strip(). -/
def strip_chars (l : List Char) : List Char :=
  ((l.dropWhile Char.isWhitespace).reverse.dropWhile Char.isWhitespace).reverse

/-- Construction of the RiskFinding returned by analyze_risk_context
    (main.py 301-309): url and title are filled in later by the caller. -/
def mk_risk_finding (ner : List Char → List String) (now : Nat) (company : List Char)
    (m : Nat × Nat × List Char) : RiskFinding :=
  { url := "", title := "", context := strip_chars m.2.2,
    confidence_score := calculate_risk_score m.2.2 company,
    risk_category := classify_risk_category m.2.2,
    entities_found := ner m.2.2, timestamp := now }

/-- The mention loop of analyze_risk_context (main.py 285-311): the first
    context whose score reaches min_confidence_score produces the finding and
    scanning stops; otherwise the loop falls through to None. -/
def scan_mentions (ner : List Char → List String) (now : Nat) (company : List Char) :
    List (Nat × Nat × List Char) → Option RiskFinding
  | [] => none
  | m :: rest =>
    if min_confidence_score ≤ calculate_risk_score m.2.2 company then
      some (mk_risk_finding ner now company m)
    else scan_mentions ner now company rest

/-- analyze_risk_context (main.py 273-315), modelled with the Stanza pipeline
    present (`self.nlp` loaded) and no exception raised. -/
def analyze_risk_context (ner : List Char → List String) (now : Nat)
    (text company : List Char) : Option RiskFinding :=
  let mentions := extract_company_mentions text company
  if mentions.isEmpty then none else scan_mentions ner now company mentions

/-- The page content obtained by a successful fetch + parse (main.py 533-546):
    extracted title and whitespace-normalized body text. -/
structure FetchedPage where
  title : String
  body_text : List Char
deriving DecidableEq

/-- analyze_page (main.py 528-562).  Any exception in the fetch/parse/analyze
    block is caught at line 560 and the URL yields None — the same value a
    successfully fetched page without risk indicators yields. -/
def analyze_page (ner : List Char → List String) (now : Nat) (url : String)
    (company : List Char) (fetched : Except String FetchedPage) : Option RiskFinding :=
  match fetched with
  | Except.error _ => none
  | Except.ok page =>
    match analyze_risk_context ner now page.body_text company with
    | some f => some { f with url := url, title := page.title }
    | none => none

/-- One step of the completion loop of conduct_due_diligence (main.py 746-766):
    a risk finding is appended, any None increments clean_pages. -/
def tally_step (acc : List RiskFinding × Nat) (r : Option RiskFinding) :
    List RiskFinding × Nat :=
  match r with
  | some f => (acc.1 ++ [f], acc.2)
  | none => (acc.1, acc.2 + 1)

/-- The completion loop of conduct_due_diligence: the collected risk findings
    and the clean_pages counter. -/
def tally_results (results : List (Option RiskFinding)) : List RiskFinding × Nat :=
  results.foldl tally_step ([], 0)

/-- High-severity categories of _calculate_overall_risk_score (main.py 821). -/
def high_severity_categories : List String :=
  ["Financial Crime", "Legal Issues", "Regulatory"]

/-- One step of the severity loop of _calculate_overall_risk_score
    (main.py 822-824). -/
def severity_step (m : ℚ) (f : RiskFinding) : ℚ :=
  if f.risk_category ∈ high_severity_categories then pymin (m + 1 / 10) (3 / 2) else m

/-- _calculate_overall_risk_score (main.py 808-827).  The `if` guard at line
    810 returns 0.0 before the divisions are reached. -/
def calculate_overall_risk_score (risk_findings : List RiskFinding) (total_pages : Nat) : ℚ :=
  if risk_findings.isEmpty ∨ total_pages = 0 then 0
  else
    let avg_confidence :=
      (risk_findings.map (fun f => f.confidence_score)).sum / (risk_findings.length : ℚ)
    let frequency_factor := pymin ((risk_findings.length : ℚ) / (total_pages : ℚ)) (1 / 2)
    let severity_multiplier := risk_findings.foldl severity_step 1
    pymin ((avg_confidence * (3 / 5) + frequency_factor * (2 / 5)) * severity_multiplier) 1

/-- _determine_risk_level (main.py 829-838). -/
def determine_risk_level (risk_score : ℚ) (finding_count : Nat) : String :=
  if 4 / 5 ≤ risk_score ∨ 10 ≤ finding_count then ("HIGH RISK")
  else if 3 / 5 ≤ risk_score ∨ 5 ≤ finding_count then ("MEDIUM RISK")
  else if 3 / 10 ≤ risk_score ∨ 2 ≤ finding_count then ("LOW RISK")
  else ("MINIMAL RISK")

/-- VendorProfile (main.py 176-187), without the PDF/report bookkeeping
    fields, which no claim concerns. -/
structure VendorProfile where
  company_name : String
  total_pages_analyzed : Nat
  risk_findings : List RiskFinding
  clean_pages : Nat
  overall_risk_score : ℚ
  risk_level : String
deriving DecidableEq

/-- Steps 3-4 of conduct_due_diligence (main.py 768-784): tally the per-URL
    results, compute the score and level, and build the profile.  One result
    per URL, so total_pages_analyzed = len(urls) = results.length. -/
def conduct_profile (company : String) (results : List (Option RiskFinding)) : VendorProfile :=
  let t := tally_results results
  let score := calculate_overall_risk_score t.1 results.length
  { company_name := company, total_pages_analyzed := results.length,
    risk_findings := t.1, clean_pages := t.2,
    overall_risk_score := score,
    risk_level := determine_risk_level score t.1.length }

/-- Events of the concurrency model: creation and completion of one per-URL
    analysis task. -/
inductive EngineEvent where
  | spawn (url : String)
  | complete (url : String)
deriving DecidableEq

/-- In-flight pipeline count transition for one event. -/
def in_flight_step (c : Nat) (e : EngineEvent) : Nat :=
  match e with
  | EngineEvent.spawn _ => c + 1
  | EngineEvent.complete _ => c - 1

/-- Running maximum of the in-flight count along a trace. -/
def max_in_flight_aux : Nat → Nat → List EngineEvent → Nat
  | _, m, [] => m
  | c, m, e :: tr => max_in_flight_aux (in_flight_step c e) (max m (in_flight_step c e)) tr

/-- Largest number of simultaneously in-flight pipelines along a trace. -/
def max_in_flight (tr : List EngineEvent) : Nat := max_in_flight_aux 0 0 tr

/-- Event trace of conduct_due_diligence (main.py 736-766): the loop at lines
    738-743 creates one asyncio task per URL — every task is created (and, at
    the next await of the parent, started up to its fetch suspension) before the
    as_completed loop awaits any completion, and no semaphore or pool guards
    creation; completions then arrive in some order. -/
def engine_trace (urls completions : List String) : List EngineEvent :=
  urls.map EngineEvent.spawn ++ completions.map EngineEvent.complete

/- Concrete inputs used by witnesses and counterexamples. -/

/-- A risky page text: the company mention at position 0 is within 50
    characters of the corpus keywords convicted, guilty and sentenced
    (3 increments of 1.0, base 3/5), and three strong indicators boost the
    score to 1. -/
def text_risk : List Char := "acme was convicted guilty sentenced".toList

/-- A page text with a company mention whose only context scores
    1/5 (keyword sued at distance 5), below the 3/4 threshold. -/
def text_sub : List Char := "acme sued".toList

/-- A page text without any company mention. -/
def clean_body : List Char := "zzzz".toList

def acme : List Char := "Acme".toList

/-- Entity extractor that finds nothing (the Stanza model held fixed). -/
def ner_empty : List Char → List String := fun _ => []

def zrun (n : Nat) : List Char := List.replicate n 'z'

/-- Context with the keyword lawsuit at character distance 110 from the
    company mention (band weight 0.4). -/
def ctx_far : List Char := "acme".toList ++ zrun 106 ++ "lawsuit".toList

/-- The same content with lawsuit moved to distance 10 (band weight 1.0). -/
def ctx_near : List Char := "acme".toList ++ zrun 6 ++ "lawsuit".toList ++ zrun 100

/-- A risk finding with confidence 1/2 in a high-severity category. -/
def sample_finding : RiskFinding :=
  { url := "u", title := "t", context := [], confidence_score := 1 / 2,
    risk_category := "Legal Issues", entities_found := [], timestamp := 0 }

/-- Five fetch outcomes: four clean pages and one timeout at position 3
    (the fault-isolation scenario of the spec). -/
def c7_fetches : List (Except String FetchedPage) :=
  [Except.ok ⟨"t1", clean_body⟩, Except.ok ⟨"t2", clean_body⟩, Except.error ("timeout"),
   Except.ok ⟨"t4", clean_body⟩, Except.ok ⟨"t5", clean_body⟩]

/-- The per-URL classifier outputs of the five fetches. -/
def c7_results : List (Option RiskFinding) :=
  c7_fetches.map (fun f => analyze_page ner_empty 0 "u" acme f)

def ten_urls : List String :=
  ["u0", "u1", "u2", "u3", "u4", "u5", "u6", "u7", "u8", "u9"]

/- Helper lemmas. -/

theorem pymin_eq_min (a b : ℚ) : pymin a b = min a b := by
  unfold pymin
  split_ifs with h
  · exact (min_eq_left h).symm
  · exact (min_eq_right (le_of_not_le h)).symm

theorem pymax_eq_max (a b : ℚ) : pymax a b = max a b := by
  unfold pymax
  split_ifs with h
  · exact (max_eq_left h).symm
  · exact (max_eq_right (le_of_not_le h)).symm

/-- The mention loop returns exactly the first mention whose context clears
    the threshold. -/
theorem scan_mentions_eq_find (ner : List Char → List String) (now : Nat) (company : List Char)
    (ms : List (Nat × Nat × List Char)) :
    scan_mentions ner now company ms =
      Option.map (mk_risk_finding ner now company)
        (ms.find? (fun m => decide (min_confidence_score ≤ calculate_risk_score m.2.2 company))) := by
  induction ms with
  | nil => rfl
  | cons m rest ih =>
    by_cases h : min_confidence_score ≤ calculate_risk_score m.2.2 company
    · rw [scan_mentions, if_pos h, List.find?_cons_of_pos _ (by simpa using h)]
      rfl
    · rw [scan_mentions, if_neg h, List.find?_cons_of_neg _ (by simpa using h), ih]

/-- analyze_risk_context as a first-match search over the mention list. -/
theorem analyze_eq_find (ner : List Char → List String) (now : Nat) (text company : List Char) :
    analyze_risk_context ner now text company =
      Option.map (mk_risk_finding ner now company)
        ((extract_company_mentions text company).find?
          (fun m => decide (min_confidence_score ≤ calculate_risk_score m.2.2 company))) := by
  unfold analyze_risk_context
  cases hm : extract_company_mentions text company with
  | nil => rfl
  | cons m rest =>
    simp only [List.isEmpty_cons, Bool.false_eq_true, if_false]
    exact scan_mentions_eq_find ner now company (m :: rest)

/-- The completion-loop fold, characterized: findings in arrival order,
    clean_pages counts every None. -/
theorem tally_foldl (l : List (Option RiskFinding)) : ∀ (a : List RiskFinding) (n : Nat),
    l.foldl tally_step (a, n) = (a ++ l.filterMap id, n + l.countP (fun o => o.isNone)) := by
  induction l with
  | nil => intro a n; simp
  | cons r t ih =>
    intro a n
    cases r with
    | some f =>
      rw [List.foldl_cons]
      show List.foldl tally_step (a ++ [f], n) t = _
      rw [ih]
      simp [List.filterMap_cons, List.countP_cons]
    | none =>
      rw [List.foldl_cons]
      show List.foldl tally_step (a, n + 1) t = _
      rw [ih]
      simp [List.filterMap_cons, List.countP_cons]
      omega

theorem tally_results_eq (l : List (Option RiskFinding)) :
    tally_results l = (l.filterMap id, l.countP (fun o => o.isNone)) := by
  unfold tally_results
  rw [tally_foldl]
  simp

/-- The classification-relevant fields of a finding: everything except the
    timestamp. -/
def finding_data (f : RiskFinding) :
    String × String × List Char × ℚ × String × List String :=
  (f.url, f.title, f.context, f.confidence_score, f.risk_category, f.entities_found)

/-- Claim C2 (amended): risk classification is deterministic in every field
    except `timestamp`: two calls of analyze_risk_context with identical body
    text, company name, keyword corpus, thresholds and entity extractor return
    Findings that agree in url, title, context, confidence_score,
    risk_category and entities_found; the timestamp field records the clock at
    call time. -/
theorem c2_deterministic_except_timestamp (ner : List Char → List String)
    (t1 t2 : Nat) (text company : List Char) :
    Option.map finding_data (analyze_risk_context ner t1 text company) =
      Option.map finding_data (analyze_risk_context ner t2 text company) := by
  rw [analyze_eq_find, analyze_eq_find]
  cases (extract_company_mentions text company).find?
      (fun m => decide (min_confidence_score ≤ calculate_risk_score m.2.2 company)) with
  | none => rfl
  | some m => rfl

/-- Claim C2 counterexample: the classifier called on the same body text,
    company name, corpus and thresholds at two different clock instants
    returns Findings that are not bit-identical — the timestamp fields 0 and 1
    differ. -/
theorem c2_counterexample :
    analyze_risk_context ner_empty 0 text_risk acme ≠
      analyze_risk_context ner_empty 1 text_risk acme := by decide

/-- Claim C3: the first context in mention-scan order whose score is at least
    min_confidence_score determines the Finding and scanning stops there
    (analyze_risk_context is exactly a first-match search); a head context
    meeting the threshold — the branch condition at main.py line 288 is ≥, so
    a score exactly equal to the threshold is classified as risk — yields the
    risk Finding, and when every context scores below the threshold no risk
    Finding is produced. -/
theorem c3_first_match_wins (ner : List Char → List String) (now : Nat)
    (text company : List Char) :
    (analyze_risk_context ner now text company =
      Option.map (mk_risk_finding ner now company)
        ((extract_company_mentions text company).find?
          (fun m => decide (min_confidence_score ≤ calculate_risk_score m.2.2 company)))) ∧
    ((∀ m ∈ extract_company_mentions text company,
        calculate_risk_score m.2.2 company < min_confidence_score) →
      analyze_risk_context ner now text company = none) ∧
    (∀ m rest, extract_company_mentions text company = m :: rest →
      min_confidence_score ≤ calculate_risk_score m.2.2 company →
      analyze_risk_context ner now text company = some (mk_risk_finding ner now company m)) := by
  refine ⟨analyze_eq_find ner now text company, fun hall => ?_, fun m rest hm hsc => ?_⟩
  · rw [analyze_eq_find]
    have hnone : (extract_company_mentions text company).find?
        (fun m => decide (min_confidence_score ≤ calculate_risk_score m.2.2 company)) = none := by
      rw [List.find?_eq_none]
      intro x hx
      simpa using not_le.mpr (hall x hx)
    rw [hnone]
    rfl
  · rw [analyze_eq_find, hm, List.find?_cons_of_pos _ (by simpa using hsc)]
    rfl

/-- Claim C3 witness: at text_sub the single mention context scores 1/5 < 3/4
    and the classifier returns none; at text_risk the first mention context
    scores 1 ≥ 3/4 and the classifier returns its Finding. -/
theorem c3_witness :
    analyze_risk_context ner_empty 0 text_sub acme = none ∧
    analyze_risk_context ner_empty 0 text_risk acme =
      some (mk_risk_finding ner_empty 0 acme (0, 4, text_risk)) :=
  ⟨(c3_first_match_wins ner_empty 0 text_sub acme).2.1 (by decide),
   (c3_first_match_wins ner_empty 0 text_risk acme).2.2 (0, 4, text_risk) []
     (by decide) (by decide)⟩

/-- Number of risk findings in high-severity categories. -/
def count_high (fs : List RiskFinding) : Nat :=
  fs.countP (fun f => decide (f.risk_category ∈ high_severity_categories))

theorem pymin_shift (a c : ℚ) (hc : 0 ≤ c) :
    pymin (pymin a (3 / 2) + c) (3 / 2) = pymin (a + c) (3 / 2) := by
  rw [pymin_eq_min, pymin_eq_min, pymin_eq_min]
  rcases le_total a (3 / 2) with h | h
  · rw [min_eq_left h]
  · rw [min_eq_right h, min_eq_right (by linarith), min_eq_right (by linarith)]

/-- The severity loop computes min(1 + highCount/10, 1.5), for any starting
    accumulator of that shape. -/
theorem severity_foldl (fs : List RiskFinding) : ∀ q : ℚ,
    fs.foldl severity_step (pymin (1 + q / 10) (3 / 2)) =
      pymin (1 + (q + (count_high fs : ℚ)) / 10) (3 / 2) := by
  induction fs with
  | nil =>
    intro q
    simp [count_high]
  | cons f t ih =>
    intro q
    rw [List.foldl_cons]
    have hcast : (count_high (f :: t) : ℚ) =
        (count_high t : ℚ) + (if f.risk_category ∈ high_severity_categories then 1 else 0) := by
      unfold count_high
      rw [List.countP_cons]
      by_cases hf : f.risk_category ∈ high_severity_categories
      · simp [hf]
      · simp [hf]
    by_cases hf : f.risk_category ∈ high_severity_categories
    · have hstep : severity_step (pymin (1 + q / 10) (3 / 2)) f =
          pymin (1 + (q + 1) / 10) (3 / 2) := by
        unfold severity_step
        rw [if_pos hf, pymin_shift _ _ (by norm_num)]
        congr 1
        ring
      rw [hstep, ih (q + 1), hcast, if_pos hf]
      congr 1
      ring
    · have hstep : severity_step (pymin (1 + q / 10) (3 / 2)) f = pymin (1 + q / 10) (3 / 2) := by
        unfold severity_step
        rw [if_neg hf]
      rw [hstep, ih q, hcast, if_neg hf]
      congr 1
      ring

theorem severity_start (fs : List RiskFinding) :
    fs.foldl severity_step 1 = pymin (1 + (count_high fs : ℚ) / 10) (3 / 2) := by
  have h := severity_foldl fs 0
  have h0 : pymin (1 + (0 : ℚ) / 10) (3 / 2) = 1 := by
    rw [pymin_eq_min]
    norm_num
  rw [h0] at h
  rw [h]
  congr 1
  ring

/-- Claim C4: for a non-empty risk-finding list and positive total, the
    aggregate equals min(1, (0.6·avg_confidence + 0.4·min(count/total, 0.5)) ·
    severity), with severity = min(1 + 0.1·(number of findings in Financial
    Crime, Legal Issues or Regulatory), 1.5). -/
theorem c4_overall_score_formula (fs : List RiskFinding) (total : Nat)
    (hfs : fs ≠ []) (ht : 0 < total) :
    calculate_overall_risk_score fs total =
      min 1 ((3 / 5 * ((fs.map (fun f => f.confidence_score)).sum / (fs.length : ℚ)) +
              2 / 5 * min ((fs.length : ℚ) / (total : ℚ)) (1 / 2)) *
             min (1 + (count_high fs : ℚ) / 10) (3 / 2)) := by
  have hne : ¬(fs.isEmpty = true ∨ total = 0) := by
    simp [List.isEmpty_iff, hfs]
    omega
  unfold calculate_overall_risk_score
  rw [if_neg hne]
  show pymin ((_ * (3 / 5) + pymin ((fs.length : ℚ) / (total : ℚ)) (1 / 2) * (2 / 5)) *
      fs.foldl severity_step 1) 1 = _
  rw [severity_start, pymin_eq_min, pymin_eq_min, pymin_eq_min, min_comm _ (1 : ℚ)]
  congr 1
  ring

/-- Claim C4 witness: the formula applied to one finding of confidence 1/2 in
    the high-severity category Legal Issues over two analyzed pages. -/
theorem c4_witness :
    calculate_overall_risk_score [sample_finding] 2 =
      min 1 ((3 / 5 * ((([sample_finding].map (fun f => f.confidence_score)).sum) /
                (([sample_finding] : List RiskFinding).length : ℚ)) +
              2 / 5 * min ((([sample_finding] : List RiskFinding).length : ℚ) / ((2 : Nat) : ℚ)) (1 / 2)) *
             min (1 + (count_high [sample_finding] : ℚ) / 10) (3 / 2)) :=
  c4_overall_score_formula [sample_finding] 2 (by simp) (by norm_num)

/-- Claim C5: a run over zero URLs (total_analyzed = 0) produces
    overall_risk_score = 0 and MINIMAL risk level; the guard at main.py line
    810 returns before any division is evaluated, so this holds for every
    finding list at total_pages = 0. -/
theorem c5_zero_total_minimal (company : String) (fs : List RiskFinding) :
    calculate_overall_risk_score fs 0 = 0 ∧
    (conduct_profile company []).total_pages_analyzed = 0 ∧
    (conduct_profile company []).overall_risk_score = 0 ∧
    (conduct_profile company []).risk_level = "MINIMAL RISK" := by
    refine ⟨?_, rfl, ?_, ?_⟩
    · unfold calculate_overall_risk_score
      simp
    · rfl
    · rfl

theorem one_le_severity_foldl (fs : List RiskFinding) :
    ∀ m : ℚ, 1 ≤ m → 1 ≤ fs.foldl severity_step m := by
  induction fs with
  | nil => intro m hm; simpa using hm
  | cons f t ih =>
    intro m hm
    rw [List.foldl_cons]
    apply ih
    unfold severity_step
    split_ifs with hf
    · rw [pymin_eq_min]
      exact le_min (by linarith) (by norm_num)
    · exact hm

theorem list_sum_nonneg_rat (l : List ℚ) (h : ∀ x ∈ l, 0 ≤ x) : 0 ≤ l.sum := by
  induction l with
  | nil => simp
  | cons a t ih =>
    rw [List.sum_cons]
    exact add_nonneg (h a (by simp)) (ih fun x hx => h x (by simp [hx]))

/-- Claim C10: the aggregate score is exactly 0 whenever the risk-finding
    list is empty, for every total_pages value (not only total = 0); and for
    findings whose confidences lie in [0,1] — the range of the classifier — the
    aggregate always lies in [0, 1]. -/
theorem c10_empty_zero_and_bounds :
    (∀ total : Nat, calculate_overall_risk_score [] total = 0) ∧
    (∀ (fs : List RiskFinding) (total : Nat),
      (∀ f ∈ fs, 0 ≤ f.confidence_score ∧ f.confidence_score ≤ 1) →
      0 ≤ calculate_overall_risk_score fs total ∧
        calculate_overall_risk_score fs total ≤ 1) := by
  constructor
  · intro total
    unfold calculate_overall_risk_score
    simp
  · intro fs total hconf
    unfold calculate_overall_risk_score
    split_ifs with h
    · norm_num
    · have havg : 0 ≤ (fs.map (fun f => f.confidence_score)).sum / (fs.length : ℚ) := by
        apply div_nonneg
        · apply list_sum_nonneg_rat
          intro x hx
          obtain ⟨f, hf, rfl⟩ := List.mem_map.mp hx
          exact (hconf f hf).1
        · positivity
      have hfreq : 0 ≤ pymin ((fs.length : ℚ) / (total : ℚ)) (1 / 2) := by
        rw [pymin_eq_min]
        apply le_min
        · positivity
        · norm_num
      have hsev : (0 : ℚ) ≤ fs.foldl severity_step 1 :=
        le_trans (by norm_num) (one_le_severity_foldl fs 1 le_rfl)
      constructor
      · rw [pymin_eq_min]
        apply le_min _ (by norm_num)
        apply mul_nonneg _ hsev
        have h35 : (0 : ℚ) ≤ 3 / 5 := by norm_num
        have h25 : (0 : ℚ) ≤ 2 / 5 := by norm_num
        nlinarith
      · rw [pymin_eq_min]
        exact min_le_right _ _

/-- Claim C10 witness: the bounds instantiated at one finding of confidence
    1/2 over three pages. -/
theorem c10_witness :
    0 ≤ calculate_overall_risk_score [sample_finding] 3 ∧
    calculate_overall_risk_score [sample_finding] 3 ≤ 1 :=
  c10_empty_zero_and_bounds.2 [sample_finding] 3 (by decide)

/-- The order-preserving-set fold: the result extends the accumulator with a
    sublist of the input made of elements not already seen, covering all of
    the input, and preserving nodup. -/
theorem dedup_foldl_spec {α : Type} [DecidableEq α] (l : List α) : ∀ acc : List α,
    ∃ r : List α, List.foldl dedup_step acc l = acc ++ r ∧ r.Sublist l ∧
      (∀ x ∈ r, x ∉ acc) ∧ (∀ x ∈ l, x ∈ acc ∨ x ∈ r) ∧
      (acc.Nodup → (acc ++ r).Nodup) := by
  induction l with
  | nil =>
    intro acc
    exact ⟨[], by simp, List.nil_sublist _, by simp, by simp, by simp⟩
  | cons a t ih =>
    intro acc
    by_cases ha : a ∈ acc
    · obtain ⟨r, h1, h2, h3, h4, h5⟩ := ih acc
      refine ⟨r, ?_, h2.cons a, h3, ?_, h5⟩
      · rw [List.foldl_cons, show dedup_step acc a = acc from if_pos ha]
        exact h1
      · intro x hx
        rcases List.mem_cons.mp hx with rfl | hx
        · exact Or.inl ha
        · exact h4 x hx
    · obtain ⟨r, h1, h2, h3, h4, h5⟩ := ih (acc ++ [a])
      refine ⟨a :: r, ?_, h2.cons₂ a, ?_, ?_, ?_⟩
      · rw [List.foldl_cons, show dedup_step acc a = acc ++ [a] from if_neg ha, h1,
          List.append_assoc]
        rfl
      · intro x hx
        rcases List.mem_cons.mp hx with rfl | hx
        · exact ha
        · intro hxacc
          exact h3 x hx (List.mem_append.mpr (Or.inl hxacc))
      · intro x hx
        rcases List.mem_cons.mp hx with rfl | hx
        · exact Or.inr (List.mem_cons_self _ _)
        · rcases h4 x hx with hmem | hmem
          · rcases List.mem_append.mp hmem with hl | hr
            · exact Or.inl hl
            · rcases List.mem_singleton.mp hr with rfl
              exact Or.inr (List.mem_cons_self _ _)
          · exact Or.inr (List.mem_cons_of_mem _ hmem)
      · intro hnd
        have hnd2 : (acc ++ [a]).Nodup := by
          rw [List.nodup_append]
          refine ⟨hnd, List.nodup_singleton a, ?_⟩
          intro x hx hx2
          rcases List.mem_singleton.mp hx2 with rfl
          exact ha hx
        have h6 := h5 hnd2
        rwa [List.append_assoc] at h6

/-- Claim C6: first-seen-order deduplication, as the code performs it with
    list(dict.fromkeys(...)) over the concatenation of all search pages:
    the output has no repeats, is a sublist of the input (so relative order is
    first-seen order and the length never grows), has exactly the members of the input (each at most once, by nodup), processing further pages only
    appends to the dedup of earlier pages, and pages [[a,b],[b,c]] give
    [a,b,c]. -/
theorem c6_dedup_first_seen_order :
    (∀ l : List String, (dict_fromkeys l).Nodup ∧ List.Sublist (dict_fromkeys l) l ∧
      (dict_fromkeys l).length ≤ l.length ∧ (∀ x, x ∈ dict_fromkeys l ↔ x ∈ l)) ∧
    (∀ pageA pageB : List String,
      ∃ rest, dict_fromkeys pageA ++ rest = dict_fromkeys (pageA ++ pageB)) ∧
    dict_fromkeys (["a", "b"] ++ ["b", "c"]) = ["a", "b", "c"] := by
  refine ⟨?_, ?_, by decide⟩
  · intro l
    obtain ⟨r, h1, h2, _, h4, h5⟩ := dedup_foldl_spec l []
    have hr : dict_fromkeys l = r := by
      unfold dict_fromkeys
      rw [h1]
      exact List.nil_append r
    refine ⟨?_, ?_, ?_, ?_⟩
    · rw [hr]
      simp only [List.nil_append] at h5
      exact h5 List.nodup_nil
    · rw [hr]
      exact h2
    · rw [hr]
      exact h2.length_le
    · intro x
      rw [hr]
      constructor
      · intro hx
        exact h2.subset hx
      · intro hx
        rcases h4 x hx with hmem | hmem
        · exact absurd hmem (List.not_mem_nil x)
        · exact hmem
  · intro pageA pageB
    obtain ⟨r, h1, _, _, _, _⟩ := dedup_foldl_spec pageB (dict_fromkeys pageA)
    refine ⟨r, ?_⟩
    unfold dict_fromkeys
    rw [List.foldl_append]
    exact h1.symm

/-- Claim C7 counterexample: in a five-URL run where URL 3 times out and the
    other four pages are clean, the code tallies clean_pages = 5 — the failed
    URL is counted as a clean page, not excluded from both tallies, and the
    profile carries no error record (risk count + clean count account for all
    five URLs, where the claim requires the failed URL in neither tally). -/
theorem c7_counterexample :
    c7_results.length = 5 ∧
    (tally_results c7_results).1.length = 0 ∧
    (tally_results c7_results).2 = 5 ∧
    ¬((tally_results c7_results).1.length + (tally_results c7_results).2 ≤ 4) := by decide

/-- Claim C7 (amended): a fetch/extract failure of one URL never aborts the run
    — analyze_page catches the exception and yields None, the tally over the
    remaining URLs is unchanged, and every URL still contributes exactly one
    result — but the failed URL is counted in the clean_pages tally
    (indistinguishable from a page without risk indicators) rather than being
    excluded from both tallies, and no error record reaches the profile. -/
theorem c7_failure_counted_clean (ner : List Char → List String) (now : Nat)
    (url : String) (company : List Char) (e : String)
    (xs ys : List (Option RiskFinding)) :
    analyze_page ner now url company (Except.error e) = none ∧
    (tally_results (xs ++ analyze_page ner now url company (Except.error e) :: ys)).1 =
      (tally_results (xs ++ ys)).1 ∧
    (tally_results (xs ++ analyze_page ner now url company (Except.error e) :: ys)).2 =
      (tally_results (xs ++ ys)).2 + 1 ∧
    (xs ++ analyze_page ner now url company (Except.error e) :: ys).length =
      (xs ++ ys).length + 1 := by
  refine ⟨rfl, ?_, ?_, by simp only [List.length_append, List.length_cons]; omega⟩
  · rw [tally_results_eq, tally_results_eq]
    show (xs ++ none :: ys).filterMap id = _
    simp
  · rw [tally_results_eq, tally_results_eq]
    show (xs ++ none :: ys).countP (fun o => o.isNone) = _
    simp [List.countP_append, List.countP_cons]
    omega

/-- Claim C9 counterexample: a page text with a company mention whose only
    context scores 1/5, below the threshold, yields NO Finding at all —
    analyze_risk_context returns none, so there is no clean Finding carrying
    is_risk=false and confidence 1/5; such a URL is only counted in the
    clean_pages integer. -/
theorem c9_counterexample :
    extract_company_mentions text_sub acme ≠ [] ∧
    calculate_risk_score text_sub acme = 1 / 5 ∧
    analyze_risk_context ner_empty 0 text_sub acme = none := by decide

/-- Claim C9 (amended): when no company mention exists or no context reaches
    the threshold, the classifier returns None — no Finding object is created
    and no confidence is recorded; the engine then counts the URL in the
    clean_pages counter, so every per-URL result contributes exactly one
    terminal outcome: risk findings plus clean pages equal the number of
    results. -/
theorem c9_no_clean_finding (ner : List Char → List String) (now : Nat)
    (text company : List Char) (results : List (Option RiskFinding)) :
    ((∀ m ∈ extract_company_mentions text company,
        calculate_risk_score m.2.2 company < min_confidence_score) →
      analyze_risk_context ner now text company = none) ∧
    (tally_results results).1.length + (tally_results results).2 = results.length := by
  constructor
  · intro hall
    rw [analyze_eq_find]
    have hnone : (extract_company_mentions text company).find?
        (fun m => decide (min_confidence_score ≤ calculate_risk_score m.2.2 company)) = none := by
      rw [List.find?_eq_none]
      intro x hx
      simpa using not_le.mpr (hall x hx)
    rw [hnone]
    rfl
  · rw [tally_results_eq]
    show (results.filterMap id).length + results.countP (fun o => o.isNone) = results.length
    induction results with
    | nil => simp
    | cons r t ih =>
      cases r with
      | some f => simp [List.filterMap_cons, List.countP_cons, ih]; omega
      | none => simp [List.filterMap_cons, List.countP_cons, ih]; omega

/-- Claim C9 witness: the amended claim applied at text_sub (single mention,
    score 1/5 < 3/4, classifier returns none) and at a concrete result list
    of one risk finding and one clean page. -/
theorem c9_witness :
    analyze_risk_context ner_empty 0 text_sub acme = none ∧
    (tally_results [some sample_finding, none]).1.length +
      (tally_results [some sample_finding, none]).2 = 2 :=
  ⟨(c9_no_clean_finding ner_empty 0 text_sub acme []).1 (by decide),
   (c9_no_clean_finding ner_empty 0 text_sub acme [some sample_finding, none]).2⟩

theorem max_in_flight_aux_ge (tr : List EngineEvent) : ∀ c m : Nat, m ≤ max_in_flight_aux c m tr := by
  induction tr with
  | nil => intro c m; exact le_rfl
  | cons e t ih =>
    intro c m
    exact le_trans (le_max_left _ _) (ih _ _)

/-- After the spawn-only phase the running maximum has reached the number of
    spawned tasks. -/
theorem max_in_flight_spawn (urls : List String) : ∀ (rest : List EngineEvent) (c m : Nat),
    urls ≠ [] → c + urls.length ≤ max_in_flight_aux c m (urls.map EngineEvent.spawn ++ rest) := by
  induction urls with
  | nil => intro rest c m h; exact absurd rfl h
  | cons u us ih =>
    intro rest c m _
    rw [List.map_cons, List.cons_append]
    show c + (us.length + 1) ≤
      max_in_flight_aux (c + 1) (max m (c + 1)) (us.map EngineEvent.spawn ++ rest)
    by_cases hus : us = []
    · subst hus
      simp only [List.map_nil, List.nil_append, List.length_nil]
      have h1 : c + (0 + 1) ≤ max m (c + 1) := by
        have := le_max_right m (c + 1)
        omega
      exact le_trans h1 (max_in_flight_aux_ge _ _ _)
    · have h2 := ih rest (c + 1) (max m (c + 1)) hus
      omega

/-- Claim C1: conduct_due_diligence never consults max_concurrent_scrapes —
    the loop at main.py 738-743 creates one asyncio task per URL before the
    as_completed loop awaits any completion, with no semaphore or pool — so
    every pipeline can be in flight simultaneously: the in-flight count of the
    engine trace reaches the number of URLs for every run, and with ten URLs
    it reaches 10, exceeding the configured cap of 8. -/
theorem c1_engine_unbounded :
    max_concurrent_scrapes = 8 ∧
    (∀ urls completions : List String,
      urls.length ≤ max_in_flight (engine_trace urls completions)) ∧
    max_in_flight (engine_trace ten_urls ten_urls) = 10 ∧
    max_concurrent_scrapes < max_in_flight (engine_trace ten_urls ten_urls) := by
  refine ⟨rfl, ?_, by decide, by decide⟩
  intro urls completions
  by_cases h : urls = []
  · subst h
    simp
  · have := max_in_flight_spawn urls (completions.map EngineEvent.complete) 0 0 h
    unfold max_in_flight engine_trace
    omega

theorem strong_boost_aux_mono (c1 c2 : List Char) (l : List String) :
    ∀ b1 b2 : ℚ, b1 ≤ b2 →
    (∀ s ∈ l, str_contains c1 s.toList = str_contains c2 s.toList) →
    strong_boost_aux c1 b1 l ≤ strong_boost_aux c2 b2 l := by
  induction l with
  | nil => intro b1 b2 hb _; exact hb
  | cons s t ih =>
    intro b1 b2 hb heq
    show strong_boost_aux c1 _ t ≤ strong_boost_aux c2 _ t
    apply ih
    · have hs : str_contains c1 s.toList = str_contains c2 s.toList := heq s (by simp)
      rw [hs]
      split_ifs with hcon
      · rw [pymin_eq_min, pymin_eq_min]
        exact min_le_min (by linarith) le_rfl
      · exact hb
    · intro x hx
      exact heq x (by simp [hx])

/-- Claim C8: the proximity increments of _calculate_risk_score follow the
    three distance bands <50 / <100 / <200 characters with weights 1.0 / 0.7 /
    0.4 (and 0 beyond); the band weight never decreases as the distance
    shrinks; and the computed confidence is monotone in the per-keyword
    increments — for two contexts where the increment of every keyword is at least
    as large (everything else, namely the strong-indicator occurrences, being
    unchanged), the score never decreases.  Moving a keyword occurrence closer
    to the company mention raises its increment by band antitonicity, hence
    never decreases the confidence. -/
theorem c8_proximity_monotonicity :
    (∀ d : Nat, (d < 50 → band_weight d = 1) ∧ (50 ≤ d → d < 100 → band_weight d = 7 / 10) ∧
      (100 ≤ d → d < 200 → band_weight d = 2 / 5) ∧ (200 ≤ d → band_weight d = 0)) ∧
    (∀ d e : Nat, e ≤ d → band_weight d ≤ band_weight e) ∧
    (∀ ctx1 ctx2 company : List Char,
      (∀ k ∈ risk_keywords,
        keyword_increment (lower_chars ctx1) (lower_chars company) (lower_chars k.toList) ≤
          keyword_increment (lower_chars ctx2) (lower_chars company) (lower_chars k.toList)) →
      (∀ s ∈ strong_indicators,
        str_contains (lower_chars ctx1) s.toList = str_contains (lower_chars ctx2) s.toList) →
      calculate_risk_score ctx1 company ≤ calculate_risk_score ctx2 company) := by
  refine ⟨?_, ?_, ?_⟩
  · intro d
    refine ⟨fun h1 => ?_, fun h1 h2 => ?_, fun h1 h2 => ?_, fun h1 => ?_⟩ <;>
      · unfold band_weight
        split_ifs <;> first | rfl | omega
  · intro d e hde
    unfold band_weight
    split_ifs <;> norm_num <;> omega
  · intro ctx1 ctx2 company hinc hstrong
    unfold calculate_risk_score strong_boost
    apply strong_boost_aux_mono _ _ _ _ _ _ hstrong
    rw [pymin_eq_min, pymin_eq_min]
    apply min_le_min _ le_rfl
    have hpos : 0 < pymax ((risk_keywords.length : ℚ) * (1 / 10)) 1 := by
      rw [pymax_eq_max]
      exact lt_of_lt_of_le one_pos (le_max_right _ _)
    rw [div_le_div_iff_of_pos_right hpos]
    exact List.sum_le_sum hinc

/-- Claim C8 witness: band values at concrete distances, antitonicity at
    distances 10 ≤ 110, and the full-score monotonicity at two contexts that
    differ only in the keyword lawsuit standing at distance 110 versus 10 from
    the company mention. -/
theorem c8_witness :
    band_weight 49 = 1 ∧ band_weight 99 = 7 / 10 ∧ band_weight 199 = 2 / 5 ∧
    band_weight 200 = 0 ∧ band_weight 110 ≤ band_weight 10 ∧
    calculate_risk_score ctx_far acme ≤ calculate_risk_score ctx_near acme :=
  ⟨(c8_proximity_monotonicity.1 49).1 (by norm_num),
   (c8_proximity_monotonicity.1 99).2.1 (by norm_num) (by norm_num),
   (c8_proximity_monotonicity.1 199).2.2.1 (by norm_num) (by norm_num),
   (c8_proximity_monotonicity.1 200).2.2.2 (by norm_num),
   c8_proximity_monotonicity.2.1 110 10 (by norm_num),
   c8_proximity_monotonicity.2.2 ctx_far ctx_near acme (by decide) (by decide)⟩
